import Mathlib

/-!
Shallow embedding of the facility-monitor repository (src/monitor.py and
src/discord_notify.py) for checking its natural-language specification.

Modelling conventions:
  - Python strings are Lean `String`s (lists of Unicode code points); `len`,
    slicing and `in` are modelled on `String.toList`.
  - Python `str.strip` / regex `\s` strip the Unicode whitespace characters
    that can occur in this domain (ASCII whitespace, NBSP, and the ideographic
    space U+3000); `str.lower` is modelled by ASCII `Char.toLower` (the
    configured keywords and markup of this site use ASCII letters only).
  - Regexes of the source are embedded as explicit scanners with Python
    `re` semantics (leftmost match, ordered alternation, greedy repetition);
    `\d` covers ASCII and full-width digits, the decimal digit forms that
    occur on this site.
  - Browser/Playwright calls are external collaborators: their observable
    results (inner texts, attribute values, whether a click happened) are
    inputs of the embedded functions; file writes are recorded as path lists.
-/

set_option maxRecDepth 40000

namespace FacilityMonitor

/-- Whitespace as Python sees it (`str.strip`, regex `\s`): ASCII whitespace
plus NBSP and the ideographic space U+3000. -/
def isPySpace (c : Char) : Bool :=
  c = ' ' || c = '\t' || c = '\n' || c = '\r' || c = '\x0b' || c = '\x0c' ||
  c = ' ' || c = '　'

/-- Decimal digits as Python regex `\d` sees them here: ASCII and full-width. -/
def isPyDigit (c : Char) : Bool :=
  ('0' ≤ c && c ≤ '9') || ('０' ≤ c && c ≤ '９')

/-- Numeric value of one decimal digit character (as Python `int` parses it). -/
def digitVal (c : Char) : Nat :=
  if '0' ≤ c && c ≤ '9' then c.toNat - '0'.toNat
  else if '０' ≤ c && c ≤ '９' then c.toNat - '０'.toNat
  else 0

def pyLstripL (l : List Char) : List Char := l.dropWhile isPySpace

def pyRstripL (l : List Char) : List Char := (l.reverse.dropWhile isPySpace).reverse

def pyStripL (l : List Char) : List Char := pyRstripL (pyLstripL l)

/-- Python `str.strip()`. -/
def pyStrip (s : String) : String := ⟨pyStripL s.toList⟩

/-- Python `str.lower()` (ASCII range; this site's keywords are ASCII/kana). -/
def pyLower (s : String) : String := ⟨s.toList.map Char.toLower⟩

/-- Python `str.replace(a, b)` for single-character `a`, `b`. -/
def pyReplaceChar (s : String) (a b : Char) : String :=
  ⟨s.toList.map (fun c => if c = a then b else c)⟩

/-- `needle` occurs as a contiguous run at the front of `hay`. -/
def listPrefixOf : List Char → List Char → Bool
  | [], _ => true
  | _ :: _, [] => false
  | a :: as, b :: bs => (a = b) && listPrefixOf as bs

/-- `needle` occurs as a contiguous run somewhere in `hay` (Python `in`). -/
def listInfixOf (needle : List Char) : List Char → Bool
  | [] => needle.isEmpty
  | b :: bs => listPrefixOf needle (b :: bs) || listInfixOf needle bs

/-- Python substring test `needle in hay`. -/
def pyContains (hay needle : String) : Bool := listInfixOf needle.toList hay.toList

/-- Python truthiness of an optional string (`None` and `""` are falsy). -/
def pyTruthy : Option String → Bool
  | none => false
  | some s => !s.toList.isEmpty

/-! ## Status classifier (src/monitor.py `_st_from_text_and_src`,
`_status_from_class`) -/

/-- One keyword list per status, as in config `status_patterns` /
`css_class_patterns` (keys "circle", "triangle", "cross"). -/
structure Patterns where
  circle : List String
  triangle : List String
  cross : List String
deriving DecidableEq

/-- The glyph scan of `_st_from_text_and_src`: the loop
`for ch in ["○", "〇", "△", "×"]: if ch in txt: return {"〇": "○"}.get(ch, ch)`. -/
def glyph_status (txt : String) : Option String :=
  if pyContains txt "○" then some "○"
  else if pyContains txt "〇" then some "○"
  else if pyContains txt "△" then some "△"
  else if pyContains txt "×" then some "×"
  else none

/-- The keyword scan of `_st_from_text_and_src`: circle keywords first, then
triangle, then cross, each matched by `kw.lower() in n`. -/
def kw_status (n : String) (patterns : Patterns) : Option String :=
  if patterns.circle.any (fun kw => pyContains n (pyLower kw)) then some "○"
  else if patterns.triangle.any (fun kw => pyContains n (pyLower kw)) then some "△"
  else if patterns.cross.any (fun kw => pyContains n (pyLower kw)) then some "×"
  else none

/-- src/monitor.py `_st_from_text_and_src(raw, patterns)`. -/
def _st_from_text_and_src (raw : Option String) (patterns : Patterns) : Option String :=
  match raw with
  | none => none
  | some r =>
    let txt := pyStrip r
    let n := pyLower (pyReplaceChar txt '　' ' ')
    match glyph_status txt with
    | some s => some s
    | none => kw_status n patterns

/-- src/monitor.py `_status_from_class(cls, css_class_patterns)`; note the
keywords are matched against the lower-cased class string without being
lower-cased themselves, and an empty class string short-circuits to `None`. -/
def _status_from_class (cls : String) (css_class_patterns : Patterns) : Option String :=
  if cls.toList.isEmpty then none
  else
    let c := pyLower cls
    if css_class_patterns.circle.any (fun kw => pyContains c kw) then some "○"
    else if css_class_patterns.triangle.any (fun kw => pyContains c kw) then some "△"
    else if css_class_patterns.cross.any (fun kw => pyContains c kw) then some "×"
    else none

/-! ## Change detector (src/monitor.py `summaries_changed`) -/

/-- A Python dict of per-status counts, as stored in `status_counts.json`:
an association list; `dictGet` is `d.get(k, 0)` (insertion order is
irrelevant to lookups). -/
def dictGet (d : List (String × Nat)) (k : String) : Nat :=
  match d.find? (fun p => p.1 == k) with
  | some p => p.2
  | none => 0

/-- The four status keys the monitor counts. -/
def statusKeys : List String := ["○", "△", "×", "未判定"]

/-- src/monitor.py `summaries_changed(prev, cur)`. -/
def summaries_changed (prev cur : Option (List (String × Nat))) : Bool :=
  match prev with
  | none => match cur with
    | some _ => true
    | none => false
  | some p =>
    statusKeys.any (fun k => dictGet p k != dictGet (cur.getD []) k)

/-! ## Day-number pattern (src/monitor.py `_find_day_in_text`):
`re.search(r"([1-9]|[12]\d|3[01])\s*日", text)`, returning `m.group(0)`. -/

/-- The trailing `\s*日` of the day pattern: greedy whitespace then 日;
returns the matched characters. -/
def tryDaySuffix (rest : List Char) : Option (List Char) :=
  match rest.dropWhile isPySpace with
  | '日' :: _ => some (rest.takeWhile isPySpace ++ ['日'])
  | _ => none

/-- The two-digit alternatives `[12]\d` and `3[01]` of the day pattern
(tried in that order), anchored at `c :: rest`. -/
def matchDayAtTwo (c : Char) : List Char → Option (List Char)
  | [] => none
  | c2 :: rest2 =>
    match (if (c = '1' || c = '2') && isPyDigit c2 then
             (tryDaySuffix rest2).map (fun t => c :: c2 :: t) else none) with
    | some m => some m
    | none =>
      if c = '3' && (c2 = '0' || c2 = '1') then
        (tryDaySuffix rest2).map (fun t => c :: c2 :: t)
      else none

/-- Match `([1-9]|[12]\d|3[01])\s*日` anchored at the head of `cs`
(alternatives tried in the written order, as Python `re` does). -/
def matchDayAt : List Char → Option (List Char)
  | [] => none
  | c :: rest =>
    match (if '1' ≤ c && c ≤ '9' then (tryDaySuffix rest).map (c :: ·) else none) with
    | some m => some m
    | none => matchDayAtTwo c rest

/-- Leftmost unanchored search for the day pattern (`re.search`). -/
def findDayAux : List Char → Option (List Char)
  | [] => none
  | c :: rest =>
    match matchDayAt (c :: rest) with
    | some m => some m
    | none => findDayAux rest

/-- src/monitor.py `_find_day_in_text(text)`. -/
def _find_day_in_text (text : String) : Option String :=
  (findDayAux text.toList).map (fun m => ⟨m⟩)

/-! ## Month parsing and the forward check
(src/monitor.py `_ym`, `_is_forward`, `get_current_year_month_text`,
`click_next_month`) -/

/-- Match `(\d{4})年(\d{1,2})月` anchored at the head of the text
(`re.match` in `_ym`): four digits, the literal 年, one or two digits
(greedy, so two digits are preferred), the literal 月. -/
def ymMatch : List Char → Option (Nat × Nat)
  | a :: b :: c :: d :: '年' :: rest =>
    if isPyDigit a && isPyDigit b && isPyDigit c && isPyDigit d then
      let y := 1000 * digitVal a + 100 * digitVal b + 10 * digitVal c + digitVal d
      match rest with
      | e :: rest2 =>
        if isPyDigit e then
          match rest2 with
          | f :: rest3 =>
            if isPyDigit f then
              match rest3 with
              | '月' :: _ => some (y, 10 * digitVal e + digitVal f)
              | _ =>
                match rest2 with
                | '月' :: _ => some (y, digitVal e)
                | _ => none
            else
              match rest2 with
              | '月' :: _ => some (y, digitVal e)
              | _ => none
          | [] => none
        else none
      | [] => none
    else none
  | _ => none

/-- src/monitor.py `_ym(text)`. -/
def _ym (text : Option String) : Option (Nat × Nat) :=
  match text with
  | none => none
  | some t => if t.toList.isEmpty then none else ymMatch t.toList

/-- src/monitor.py `_is_forward(prev, cur)`. -/
def _is_forward (prev cur : String) : Bool :=
  match _ym (some prev), _ym (some cur) with
  | some (py, pm), some (cy, cm) =>
    (pm == 12 && cy == py + 1 && cm == 1) || (cy == py && cm == pm + 1)
  | _, _ => false

/-- Match `(\d{4})\s*年\s*(\d{1,2})\s*月` anchored at the head of the text
(the pattern of `get_current_year_month_text`, which allows whitespace
around 年 and 月). -/
def ymLooseMatchAt : List Char → Option (Nat × Nat)
  | a :: b :: c :: d :: rest =>
    if isPyDigit a && isPyDigit b && isPyDigit c && isPyDigit d then
      let y := 1000 * digitVal a + 100 * digitVal b + 10 * digitVal c + digitVal d
      match rest.dropWhile isPySpace with
      | '年' :: rest2 =>
        match rest2.dropWhile isPySpace with
        | e :: rest3 =>
          if isPyDigit e then
            match rest3 with
            | f :: rest4 =>
              if isPyDigit f then
                match rest4.dropWhile isPySpace with
                | '月' :: _ => some (y, 10 * digitVal e + digitVal f)
                | _ =>
                  match rest3.dropWhile isPySpace with
                  | '月' :: _ => some (y, digitVal e)
                  | _ => none
              else
                match rest3.dropWhile isPySpace with
                | '月' :: _ => some (y, digitVal e)
                | _ => none
            | [] =>
              match rest3.dropWhile isPySpace with
              | '月' :: _ => some (y, digitVal e)
              | _ => none
          else none
        | _ => none
      | _ => none
    else none
  | _ => none

/-- Leftmost unanchored search for the loose year-month pattern (`re.search`). -/
def searchYm : List Char → Option (Nat × Nat)
  | [] => none
  | c :: rest =>
    match ymLooseMatchAt (c :: rest) with
    | some r => some r
    | none => searchYm rest

/-- The `f"{y}年{mo}月"` formatting of `get_current_year_month_text`. -/
def formatYm (y mo : Nat) : String := toString y ++ "年" ++ toString mo ++ "月"

/-- src/monitor.py `get_current_year_month_text(page, calendar_root)`.
`targets` holds the texts the function managed to gather (the calendar
root's inner text and/or the page body text); falsy (empty) entries are
skipped, and the first text containing the year-month pattern decides. -/
def get_current_year_month_text (targets : List String) : Option String :=
  match targets with
  | [] => none
  | t :: rest =>
    if t.toList.isEmpty then get_current_year_month_text rest
    else
      match searchYm t.toList with
      | some (y, mo) => some (formatYm y mo)
      | none => get_current_year_month_text rest

/-- src/monitor.py `click_next_month`, reduced to its return-value logic.
`clicked` says whether step 1 managed to dispatch a click on some next-month
control; `cur` is the month text re-read after the click (`None` both when
the year-month pattern was absent and when reading it threw, since the call
sits in a `try/except` that leaves `cur = None`). The waiting in step 2
never changes the result. -/
def click_next_month (clicked : Bool) (prev_month_text cur : Option String) : Bool :=
  if !clicked then false
  else if pyTruthy prev_month_text && pyTruthy cur &&
          !(_is_forward (prev_month_text.getD "") (cur.getD "")) then false
  else true

/-! ## HTML scanners for the bulk parser
(src/monitor.py `_extract_td_blocks`, `_inner_text_like` and the inline
`<img ...>` attribute regexes). Python regexes become explicit scanners:
leftmost non-overlapping matches, `IGNORECASE` on the literal letters. -/

/-- Word characters for the regex `\b` boundary in `<td\b` / `<img\b`
(the tags of this markup are followed by a space or `>`). -/
def isPyWordChar (c : Char) : Bool := c.isAlphanum || c = '_'

/-- Case-insensitive literal-prefix match; returns the rest of the input. -/
def ciPrefix : List Char → List Char → Option (List Char)
  | [], cs => some cs
  | _ :: _, [] => none
  | p :: ps, c :: cs => if p.toLower = c.toLower then ciPrefix ps cs else none

/-- Split at the first (leftmost) case-insensitive occurrence of `pat`,
returning the text before it and the rest after it — the non-greedy
`(.*?)pat` step. -/
def splitFirstCI (pat : List Char) : List Char → Option (List Char × List Char)
  | [] =>
    match ciPrefix pat [] with
    | some r => some ([], r)
    | none => none
  | c :: cs =>
    match ciPrefix pat (c :: cs) with
    | some rest => some ([], rest)
    | none =>
      match splitFirstCI pat cs with
      | some (pre, rest) => some (c :: pre, rest)
      | none => none

/-- Match `<td\b([^>]*)>(.*?)</td>` anchored at the head of `cs`; returns
(attrs, inner, rest after the closing tag). -/
def tdMatchAt (cs : List Char) : Option (List Char × List Char × List Char) :=
  match ciPrefix "<td".toList cs with
  | none => none
  | some afterTd =>
    let okBoundary := match afterTd with
      | [] => true
      | c :: _ => !isPyWordChar c
    if okBoundary then
      let attrs := afterTd.takeWhile (· ≠ '>')
      match afterTd.drop attrs.length with
      | '>' :: rest2 =>
        match splitFirstCI "</td>".toList rest2 with
        | some (inner, rest3) => some (attrs, inner, rest3)
        | none => none
      | _ => none
    else none

/-- `re.finditer` over the td-block pattern: leftmost non-overlapping
matches, scanning resumes after each match. Fuel is the input length
(every step consumes at least one character). -/
def extractTdAux : Nat → List Char → List (List Char × List Char)
  | 0, _ => []
  | _ + 1, [] => []
  | fuel + 1, c :: cs =>
    match tdMatchAt (c :: cs) with
    | some (attrs, inner, rest) => (attrs, inner) :: extractTdAux fuel rest
    | none => extractTdAux fuel cs

/-- `re.search(name + r'\s*=\s*"([^"]*)"', attrs, IGNORECASE)` at one
position: the attribute name, optional whitespace, `=`, optional
whitespace, then a double-quoted value. -/
def attrValAt (name : List Char) (cs : List Char) : Option (List Char) :=
  match ciPrefix name cs with
  | none => none
  | some r1 =>
    match r1.dropWhile isPySpace with
    | '=' :: r3 =>
      match r3.dropWhile isPySpace with
      | '"' :: r5 =>
        let v := r5.takeWhile (· ≠ '"')
        match r5.drop v.length with
        | '"' :: _ => some v
        | _ => none
      | _ => none
    | _ => none

/-- Leftmost search for a quoted attribute value (like the Python
attribute regexes, this happily matches inside a longer attribute name). -/
def findAttrVal (name : List Char) : List Char → Option (List Char)
  | [] => none
  | c :: cs =>
    match attrValAt name (c :: cs) with
    | some v => some v
    | none => findAttrVal name cs

/-- One parsed `<td>` block of `_extract_td_blocks`: the raw attribute
text plus the extracted class / title / aria-label values and inner HTML. -/
structure TdBlock where
  attrs : String
  cls : String
  title : String
  aria : String
  inner : String
deriving DecidableEq

/-- src/monitor.py `_extract_td_blocks(html)`. -/
def _extract_td_blocks (html : String) : List TdBlock :=
  (extractTdAux html.toList.length html.toList).map fun p =>
    { attrs := ⟨p.1⟩
      cls := ⟨(findAttrVal "class".toList p.1).getD []⟩
      title := ⟨(findAttrVal "title".toList p.1).getD []⟩
      aria := ⟨(findAttrVal "aria-label".toList p.1).getD []⟩
      inner := ⟨p.2⟩ }

/-- Match `<img\b([^>]*)>` anchored at the head; returns (attrs, rest). -/
def imgMatchAt (cs : List Char) : Option (List Char × List Char) :=
  match ciPrefix "<img".toList cs with
  | none => none
  | some r1 =>
    let okBoundary := match r1 with
      | [] => true
      | c :: _ => !isPyWordChar c
    if okBoundary then
      let attrs := r1.takeWhile (· ≠ '>')
      match r1.drop attrs.length with
      | '>' :: rest => some (attrs, rest)
      | _ => none
    else none

/-- `re.finditer(r"<img\b([^>]*)>", inner)`: the attribute strings of all
image tags, leftmost first. -/
def extractImgAux : Nat → List Char → List (List Char)
  | 0, _ => []
  | _ + 1, [] => []
  | fuel + 1, c :: cs =>
    match imgMatchAt (c :: cs) with
    | some (attrs, rest) => attrs :: extractImgAux fuel rest
    | none => extractImgAux fuel cs

/-- All `<img>` attribute strings inside a td's inner HTML. -/
def extractImgTags (inner : String) : List String :=
  (extractImgAux inner.toList.length inner.toList).map (fun a => ⟨a⟩)

/-- Match `<br\s*/?>` (IGNORECASE) anchored at the head; returns the rest. -/
def brMatchAt (cs : List Char) : Option (List Char) :=
  match ciPrefix "<br".toList cs with
  | none => none
  | some r1 =>
    match r1.dropWhile isPySpace with
    | '/' :: '>' :: rest => some rest
    | '>' :: rest => some rest
    | _ => none

/-- `re.sub(r"<br\s*/?>", " ", s)`. -/
def subBrAux : Nat → List Char → List Char
  | 0, cs => cs
  | _ + 1, [] => []
  | fuel + 1, c :: cs =>
    match brMatchAt (c :: cs) with
    | some rest => ' ' :: subBrAux fuel rest
    | none => c :: subBrAux fuel cs

/-- Match `<[^>]+>` anchored at the head; returns the rest. -/
def tagMatchAt : List Char → Option (List Char)
  | '<' :: rest =>
    let body := rest.takeWhile (· ≠ '>')
    if body.isEmpty then none
    else
      match rest.drop body.length with
      | '>' :: rest2 => some rest2
      | _ => none
  | _ => none

/-- `re.sub(r"<[^>]+>", " ", s)`. -/
def subTagAux : Nat → List Char → List Char
  | 0, cs => cs
  | _ + 1, [] => []
  | fuel + 1, c :: cs =>
    match tagMatchAt (c :: cs) with
    | some rest => ' ' :: subTagAux fuel rest
    | none => c :: subTagAux fuel cs

theorem length_dropWhile_le (p : Char → Bool) :
    ∀ l : List Char, (l.dropWhile p).length ≤ l.length := by
  intro l
  induction l with
  | nil => simp [List.dropWhile]
  | cons c cs ih =>
    by_cases h : p c
    · simpa [List.dropWhile, h] using Nat.le_trans ih (Nat.le_succ _)
    · simp [List.dropWhile, h]

/-- `re.sub(r"\s+", " ", s)`: collapse each whitespace run to one space.
Fuel is the input length (every step consumes at least one character). -/
def collapseWsAux : Nat → List Char → List Char
  | 0, cs => cs
  | _ + 1, [] => []
  | fuel + 1, c :: cs =>
    if isPySpace c then ' ' :: collapseWsAux fuel (cs.dropWhile isPySpace)
    else c :: collapseWsAux fuel cs

def collapseWs (l : List Char) : List Char := collapseWsAux l.length l

/-- src/monitor.py `_inner_text_like(html_fragment)`: `<br>` to space,
strip tags, collapse whitespace, strip. -/
def _inner_text_like (frag : String) : String :=
  let s1 := subBrAux frag.toList.length frag.toList
  let s2 := subTagAux s1.length s1
  ⟨pyStripL (collapseWs s2)⟩

/-! ## Bulk extractor (src/monitor.py `summarize_vacancies`) -/

/-- One per-day record of `details`: `{"day": ..., "status": ..., "text": ...}`. -/
structure Detail where
  day : String
  status : String
  text : String
deriving DecidableEq

/-- The monitor's configuration slice used by extraction. -/
structure Config where
  status_patterns : Patterns
  css_class_patterns : Patterns
deriving DecidableEq

/-- `summary = {"○": 0, "△": 0, "×": 0, "未判定": 0}`. -/
def initSummary : List (String × Nat) := [("○", 0), ("△", 0), ("×", 0), ("未判定", 0)]

/-- `summary[st] += 1` (every status produced below is one of the four keys,
so the Python `KeyError` path is unreachable). -/
def bumpKey (d : List (String × Nat)) (k : String) : List (String × Nat) :=
  match d with
  | [] => []
  | p :: rest => if p.1 == k then (p.1, p.2 + 1) :: rest else p :: bumpKey rest k

/-- The day-detection cascade of `summarize_vacancies` for one td block:
visible-like text first, then the title/aria attribute text, then each
descendant image's alt/title. -/
def findDayInImgs : List String → Option String
  | [] => none
  | a :: rest =>
    let alt := ((findAttrVal "alt".toList a.toList).map (fun v => (⟨v⟩ : String))).getD ""
    let ititle := ((findAttrVal "title".toList a.toList).map (fun v => (⟨v⟩ : String))).getD ""
    match _find_day_in_text (alt ++ " " ++ ititle) with
    | some d => some d
    | none => findDayInImgs rest

/-- Day of one td block (`None` means the cell is skipped). -/
def tdDay (td : TdBlock) : Option String :=
  match _find_day_in_text (_inner_text_like td.inner) with
  | some d => some d
  | none =>
    match _find_day_in_text (td.title ++ " " ++ td.aria) with
    | some d => some d
    | none => findDayInImgs (extractImgTags td.inner)

/-- The image-based status step of `summarize_vacancies`: for each image,
`_st_from_text_and_src(f"{alt} {ititle} {src}", patterns)` on the
concatenated attributes, first hit wins. -/
def stFromImgs : List String → Patterns → Option String
  | [], _ => none
  | a :: rest, patterns =>
    let alt := ((findAttrVal "alt".toList a.toList).map (fun v => (⟨v⟩ : String))).getD ""
    let ititle := ((findAttrVal "title".toList a.toList).map (fun v => (⟨v⟩ : String))).getD ""
    let src := ((findAttrVal "src".toList a.toList).map (fun v => (⟨v⟩ : String))).getD ""
    match _st_from_text_and_src (some (alt ++ " " ++ ititle ++ " " ++ src)) patterns with
    | some st => some st
    | none => stFromImgs rest patterns

/-- The pre-default status cascade of `summarize_vacancies` for one td block:
text, then image alt/title/src, then the class attribute. The aria-label /
title attributes are not consulted here (they feed only day detection). -/
def tdStatusFound (td : TdBlock) (patterns css_class_patterns : Patterns) : Option String :=
  match _st_from_text_and_src (some (_inner_text_like td.inner)) patterns with
  | some st => some st
  | none =>
    match stFromImgs (extractImgTags td.inner) patterns with
    | some st => some st
    | none => _status_from_class td.cls css_class_patterns

/-- Status recorded for one td block (`"未判定"` when nothing matched). -/
def tdStatus (td : TdBlock) (patterns css_class_patterns : Patterns) : String :=
  (tdStatusFound td patterns css_class_patterns).getD "未判定"

/-- Record produced by one td block: `None` exactly when no day was found. -/
def processTd (td : TdBlock) (patterns css_class_patterns : Patterns) : Option Detail :=
  match tdDay td with
  | none => none
  | some day =>
    some { day := day, status := tdStatus td patterns css_class_patterns
           text := _inner_text_like td.inner }

/-- The accumulation loop of `summarize_vacancies` over the td blocks. -/
def summarizeTds (tds : List TdBlock) (patterns css_class_patterns : Patterns) :
    List (String × Nat) × List Detail :=
  tds.foldl
    (fun acc td =>
      match processTd td patterns css_class_patterns with
      | none => acc
      | some d => (bumpKey acc.1 d.status, acc.2 ++ [d]))
    (initSummary, [])

/-- The HTML-parse path of `summarize_vacancies` (steps 2 and 3, once the
region's outerHTML has been obtained). -/
def summarize_vacancies_html (html : String) (config : Config) :
    List (String × Nat) × List Detail :=
  summarizeTds (_extract_td_blocks html) config.status_patterns config.css_class_patterns

/-! ## Live-DOM cell model and the per-cell fallback
(src/monitor.py `_summarize_vacancies_fallback`).

The browser is an external collaborator; a calendar cell is modelled by the
values Playwright would report for it: its class/title/aria-label
attributes (absent = `None`) and its child nodes (text runs, `<br>` line
breaks, `<img>` elements with alt/title/src attributes). -/

structure ImgNode where
  alt : Option String
  title : Option String
  src : Option String
deriving DecidableEq

inductive CellNode where
  | text (s : String)
  | br
  | img (i : ImgNode)
deriving DecidableEq

structure Cell where
  cls : Option String
  title : Option String
  aria : Option String
  children : List CellNode
deriving DecidableEq

/-- Text Playwright's `inner_text()` reports for one child node. -/
def nodeText : CellNode → String
  | .text s => s
  | .br => "\n"
  | .img _ => ""

/-- `el.inner_text()` for a cell. -/
def cellInnerText (c : Cell) : String := String.join (c.children.map nodeText)

/-- The descendant images `el.locator("img")` enumerates. -/
def cellImgs (c : Cell) : List ImgNode :=
  c.children.filterMap fun n =>
    match n with
    | .img i => some i
    | _ => none

/-- `^` positions of a MULTILINE regex: the string start and every position
following a newline; `re.search(r"^([1-9]|[12]\d|3[01])\s*日", head,
re.MULTILINE)` tries the day pattern exactly there, leftmost first. -/
def searchDayAnchoredAux : List Char → Option (List Char)
  | [] => none
  | c :: cs =>
    if c = '\n' then
      match matchDayAt cs with
      | some m => some m
      | none => searchDayAnchoredAux cs
    else searchDayAnchoredAux cs

def searchDayAnchored (cs : List Char) : Option (List Char) :=
  match matchDayAt cs with
  | some m => some m
  | none => searchDayAnchoredAux cs

/-- Day detection of the fallback: the anchored pattern on the first 40
characters of the stripped text, else the plain pattern on
`aria-label + " " + title`, else on each image's `alt + " " + title`. -/
def fallbackDayImgs : List ImgNode → Option String
  | [] => none
  | i :: rest =>
    let alt := i.alt.getD ""
    let tit := i.title.getD ""
    match findDayAux (alt ++ " " ++ tit).toList with
    | some m => some ⟨m⟩
    | none => fallbackDayImgs rest

def fallbackDay (el : Cell) (txt : String) : Option String :=
  match searchDayAnchored (txt.toList.take 40) with
  | some m => some ⟨m⟩
  | none =>
    let aria := el.aria.getD ""
    let title := el.title.getD ""
    match findDayAux (aria ++ " " ++ title).toList with
    | some m => some ⟨m⟩
    | none => fallbackDayImgs (cellImgs el)

/-- Image status step of the fallback: `_st(alt + " " + tit) or _st(src)`
per image, first hit wins. -/
def fallbackStImgs : List ImgNode → Patterns → Option String
  | [], _ => none
  | i :: rest, patterns =>
    let alt := i.alt.getD ""
    let tit := i.title.getD ""
    let src := i.src.getD ""
    match _st_from_text_and_src (some (alt ++ " " ++ tit)) patterns with
    | some st => some st
    | none =>
      match _st_from_text_and_src (some src) patterns with
      | some st => some st
      | none => fallbackStImgs rest patterns

/-- Status cascade of the fallback: text, images, aria-label/title text,
then the class attribute against the class keyword lists. -/
def fallbackStatus (el : Cell) (txt : String) (config : Config) : String :=
  match _st_from_text_and_src (some txt) config.status_patterns with
  | some st => st
  | none =>
    match fallbackStImgs (cellImgs el) config.status_patterns with
    | some st => st
    | none =>
      let aria := el.aria.getD ""
      let tit := el.title.getD ""
      let cls := pyLower (el.cls.getD "")
      match _st_from_text_and_src (some (aria ++ " " ++ tit)) config.status_patterns with
      | some st => st
      | none =>
        if config.css_class_patterns.circle.any (fun kw => pyContains cls kw) then "○"
        else if config.css_class_patterns.triangle.any (fun kw => pyContains cls kw) then "△"
        else if config.css_class_patterns.cross.any (fun kw => pyContains cls kw) then "×"
        else "未判定"

/-- src/monitor.py `_summarize_vacancies_fallback(page, calendar_root,
config)` over the enumerated candidate cells (the per-cell exception
swallowing is not modelled: attribute absence is `None`). -/
def _summarize_vacancies_fallback (cells : List Cell) (config : Config) :
    List (String × Nat) × List Detail :=
  cells.foldl
    (fun acc el =>
      let txt := pyStrip (cellInnerText el)
      match fallbackDay el txt with
      | none => acc
      | some day =>
        let st := fallbackStatus el txt config
        (bumpKey acc.1 st, acc.2 ++ [⟨day, st, txt⟩]))
    (initSummary, [])

/-- src/monitor.py `summarize_vacancies(page, calendar_root, config)`:
`calendar_root.evaluate("el => el.outerHTML")` either throws
(`Except.error`) — then the result is exactly the per-cell fallback — or
yields the serialized markup, which is parsed in bulk. -/
def summarize_vacancies (htmlResult : Except Unit String) (cells : List Cell)
    (config : Config) : List (String × Nat) × List Detail :=
  match htmlResult with
  | .error _ => _summarize_vacancies_fallback cells config
  | .ok html => summarize_vacancies_html html config

/-! ## Serialisation: the markup the two extractors share.
`outerHTML` of the calendar region renders each cell as a `<td>` whose
attributes and children are the ones the live queries would see. -/

def renderAttr (name : String) (v : Option String) : String :=
  match v with
  | none => ""
  | some s => " " ++ name ++ "=\"" ++ s ++ "\""

def renderNode : CellNode → String
  | .text s => s
  | .br => "<br>"
  | .img i =>
    "<img" ++ renderAttr "alt" i.alt ++ renderAttr "title" i.title ++
      renderAttr "src" i.src ++ ">"

def renderCell (c : Cell) : String :=
  "<td" ++ renderAttr "class" c.cls ++ renderAttr "title" c.title ++
    renderAttr "aria-label" c.aria ++ ">" ++
    String.join (c.children.map renderNode) ++ "</td>"

def renderRegion (cells : List Cell) : String :=
  "<table><tbody><tr>" ++ String.join (cells.map renderCell) ++ "</tr></tbody></table>"

/-! ## Persistence (src/monitor.py `save_calendar_assets`, `run_monitor`) -/

/-- Outcome of `save_calendar_assets`: the files written (in write order)
and the returned four-tuple of paths. -/
structure SaveOutcome where
  writes : List String
  latest_html : String
  latest_png : String
  ts_html : Option String
  ts_png : Option String
deriving DecidableEq

/-- src/monitor.py `save_calendar_assets(cal_root, outdir, save_ts)`;
`ts` is the formatted timestamp `%Y%m%d_%H%M%S`. -/
def save_calendar_assets (outdir ts : String) (save_ts : Bool) : SaveOutcome :=
  let latest_html := outdir ++ "/calendar.html"
  let latest_png := outdir ++ "/calendar.png"
  let html_ts := outdir ++ "/calendar_" ++ ts ++ ".html"
  let png_ts := outdir ++ "/calendar_" ++ ts ++ ".png"
  if save_ts then
    { writes := [latest_html, latest_png, html_ts, png_ts]
      latest_html := latest_html, latest_png := latest_png
      ts_html := some html_ts, ts_png := some png_ts }
  else
    { writes := [latest_html, latest_png]
      latest_html := latest_html, latest_png := latest_png
      ts_html := none, ts_png := none }

/-- The per-month persistence step of `run_monitor`: decide `changed` with
`summaries_changed` and call `save_calendar_assets` with `save_ts=changed`. -/
def run_monitor_persist (prev : Option (List (String × Nat)))
    (summary : List (String × Nat)) (outdir ts : String) : Bool × SaveOutcome :=
  let changed := summaries_changed prev (some summary)
  (changed, save_calendar_assets outdir ts changed)

/-! ## Message splitting (src/discord_notify.py `_split_content`) -/

/-- Transport limit `DISCORD_CONTENT_LIMIT` (the default `limit`). -/
def DISCORD_CONTENT_LIMIT : Nat := 2000

/-- Python `cur.rfind(ch, 0, hi)`: the greatest index `i < hi` with
`cur[i] = ch` (`None` for Python's `-1`). Searches downward from `hi - 1`;
indices beyond the list length never match. -/
def pyRfind (ch : Char) (cs : List Char) : Nat → Option Nat
  | 0 => none
  | i + 1 => if cs.get? i = some ch then some i else pyRfind ch cs i

/-- The cut-point choice of `_split_content`: last newline before the
limit, else last space before the limit, else the hard cut at `limit`. -/
def chooseCut (cur : List Char) (limit : Nat) : Nat :=
  match pyRfind '\n' cur limit with
  | some i => i
  | none =>
    match pyRfind ' ' cur limit with
    | some i => i
    | none => limit

/-- The `while len(cur) > limit` loop of `_split_content`, followed by the
final `if cur: out.append(cur)`. Fuel bounds the iteration count; every
iteration shortens `cur`, so `cur.length` fuel always suffices. -/
def splitAux (limit : Nat) : Nat → List Char → List (List Char)
  | 0, cur => if cur.isEmpty then [] else [cur]
  | fuel + 1, cur =>
    if limit < cur.length then
      let cut := chooseCut cur limit
      pyRstripL (cur.take cut) :: splitAux limit fuel (pyLstripL (cur.drop cut))
    else if cur.isEmpty then [] else [cur]

/-- src/discord_notify.py `_split_content(s, limit)`. -/
def _split_content (s : String) (limit : Nat) : List String :=
  let cur := pyStripL s.toList
  (splitAux limit cur.length cur).map (fun l => ⟨l⟩)

/-! ## Helper lemmas -/

theorem listInfixOf_singleton (c : Char) (l : List Char) :
    listInfixOf [c] l = true ↔ c ∈ l := by
  induction l with
  | nil => simp [listInfixOf]
  | cons b bs ih =>
    simp [listInfixOf, listPrefixOf, ih, List.mem_cons]

theorem mem_dropWhile_of_not {p : Char → Bool} {c : Char} (hc : p c = false)
    (l : List Char) : c ∈ l.dropWhile p ↔ c ∈ l := by
  induction l with
  | nil => simp
  | cons b bs ih =>
    by_cases hb : p b
    · rw [List.dropWhile_cons_of_pos hb]
      constructor
      · intro h
        exact List.mem_cons_of_mem _ (ih.mp h)
      · intro h
        rcases List.mem_cons.mp h with h | h
        · subst h
          rw [hb] at hc
          cases hc
        · exact ih.mpr h
    · rw [List.dropWhile_cons_of_neg hb]

theorem mem_pyStripL {c : Char} (hc : isPySpace c = false) (l : List Char) :
    c ∈ pyStripL l ↔ c ∈ l := by
  unfold pyStripL pyRstripL pyLstripL
  rw [List.mem_reverse, mem_dropWhile_of_not hc, List.mem_reverse,
    mem_dropWhile_of_not hc]

theorem pyContains_strip_single {c : Char} (hc : isPySpace c = false) (s : String) :
    pyContains (pyStrip s) ⟨[c]⟩ = pyContains s ⟨[c]⟩ := by
  show listInfixOf [c] (pyStripL s.toList) = listInfixOf [c] s.toList
  rw [Bool.eq_iff_iff, listInfixOf_singleton, listInfixOf_singleton,
    mem_pyStripL hc]

/-! ## C1 -/

/-- C1: `summaries_changed(prev, cur)` for a present `cur` is true exactly
when `prev` is absent or one of the four per-status counts differs; in
particular it is true for `prev = None`, and false whenever all four counts
agree — counts being dictionary lookups, the dictionaries' key order is
irrelevant. -/
theorem summaries_changed_spec (prev : Option (List (String × Nat)))
    (cur : List (String × Nat)) :
    (summaries_changed prev (some cur) = true ↔
      prev = none ∨ ∃ p, prev = some p ∧ ∃ k ∈ statusKeys, dictGet p k ≠ dictGet cur k) ∧
    summaries_changed none (some cur) = true ∧
    (∀ p, (∀ k ∈ statusKeys, dictGet p k = dictGet cur k) →
      summaries_changed (some p) (some cur) = false) := by
  refine ⟨?_, rfl, ?_⟩
  · cases prev with
    | none => simp [summaries_changed]
    | some p =>
      simp [summaries_changed, List.any_eq_true, bne_iff_ne]
  · intro p h
    simp only [summaries_changed, Option.getD_some, List.any_eq_false]
    intro k hk
    simp [h k hk]

/-- Witness for C1: two four-key summaries with identical counts but
reversed key order are reported unchanged. -/
theorem summaries_changed_spec_witness :
    (∀ k ∈ statusKeys,
      dictGet [("○", 1), ("△", 2), ("×", 0), ("未判定", 3)] k =
        dictGet [("未判定", 3), ("×", 0), ("△", 2), ("○", 1)] k) ∧
    summaries_changed (some [("○", 1), ("△", 2), ("×", 0), ("未判定", 3)])
      (some [("未判定", 3), ("×", 0), ("△", 2), ("○", 1)]) = false :=
  ⟨by decide,
    (summaries_changed_spec (some [("○", 1), ("△", 2), ("×", 0), ("未判定", 3)])
      [("未判定", 3), ("×", 0), ("△", 2), ("○", 1)]).2.2
      [("○", 1), ("△", 2), ("×", 0), ("未判定", 3)] (by decide)⟩

/-! ## C2 -/

/-- C2: a literal glyph in the cell text decides the status regardless of
the configured keyword lists — a circle (either form, the alternate 〇
normalised to ○) yields ○, a triangle with no circle yields △, a cross
with no circle/triangle yields ×, the result never depends on the keyword
configuration while a glyph is present — and the keyword scan is consulted
exactly when the text contains none of the four glyphs. -/
theorem st_glyph_precedence (raw : String) (p q : Patterns) :
    ((pyContains raw "○" = true ∨ pyContains raw "〇" = true) →
      _st_from_text_and_src (some raw) p = some "○") ∧
    (pyContains raw "○" = false → pyContains raw "〇" = false →
      pyContains raw "△" = true →
      _st_from_text_and_src (some raw) p = some "△") ∧
    (pyContains raw "○" = false → pyContains raw "〇" = false →
      pyContains raw "△" = false → pyContains raw "×" = true →
      _st_from_text_and_src (some raw) p = some "×") ∧
    ((pyContains raw "○" = true ∨ pyContains raw "〇" = true ∨
      pyContains raw "△" = true ∨ pyContains raw "×" = true) →
      _st_from_text_and_src (some raw) p = _st_from_text_and_src (some raw) q) ∧
    (pyContains raw "○" = false → pyContains raw "〇" = false →
      pyContains raw "△" = false → pyContains raw "×" = false →
      _st_from_text_and_src (some raw) p =
        kw_status (pyLower (pyReplaceChar (pyStrip raw) '　' ' ')) p) := by
  have h1 : pyContains (pyStrip raw) "○" = pyContains raw "○" :=
    pyContains_strip_single (by decide) raw
  have h2 : pyContains (pyStrip raw) "〇" = pyContains raw "〇" :=
    pyContains_strip_single (by decide) raw
  have h3 : pyContains (pyStrip raw) "△" = pyContains raw "△" :=
    pyContains_strip_single (by decide) raw
  have h4 : pyContains (pyStrip raw) "×" = pyContains raw "×" :=
    pyContains_strip_single (by decide) raw
  have key : ∀ r : Patterns,
      _st_from_text_and_src (some raw) r =
        match glyph_status (pyStrip raw) with
        | some s => some s
        | none => kw_status (pyLower (pyReplaceChar (pyStrip raw) '　' ' ')) r := by
    intro r
    rfl
  refine ⟨?_, ?_, ?_, ?_, ?_⟩
  · rintro (h | h)
    · rw [key, show glyph_status (pyStrip raw) = some "○" by
        unfold glyph_status
        rw [h1, h]
        rfl]
    · rw [key]
      unfold glyph_status
      rw [h1, h2, h]
      by_cases h0 : pyContains raw "○" <;> simp [h0]
  · intro hno hno2 h
    rw [key, show glyph_status (pyStrip raw) = some "△" by
      unfold glyph_status
      rw [h1, h2, h3, hno, hno2, h]
      rfl]
  · intro hno hno2 hno3 h
    rw [key, show glyph_status (pyStrip raw) = some "×" by
      unfold glyph_status
      rw [h1, h2, h3, h4, hno, hno2, hno3, h]
      rfl]
  · intro h
    have : ∃ s, glyph_status (pyStrip raw) = some s := by
      unfold glyph_status
      rw [h1, h2, h3, h4]
      rcases h with h | h | h | h <;> rw [h] <;>
        repeat' first
          | exact ⟨_, rfl⟩
          | split
    rcases this with ⟨s, hs⟩
    rw [key p, key q, hs]
  · intro hno hno2 hno3 hno4
    rw [key, show glyph_status (pyStrip raw) = none by
      unfold glyph_status
      rw [h1, h2, h3, h4, hno, hno2, hno3, hno4]
      rfl]

/-- Witness for C2: a text containing only the cross glyph classifies as ×
even though a keyword list matches the rest of the text. -/
theorem st_glyph_precedence_witness :
    (pyContains "×あ" "○" = false ∧ pyContains "×あ" "〇" = false ∧
      pyContains "×あ" "△" = false ∧ pyContains "×あ" "×" = true) ∧
    _st_from_text_and_src (some "×あ") ⟨["あ"], [], []⟩ = some "×" :=
  ⟨by decide,
    (st_glyph_precedence "×あ" ⟨["あ"], [], []⟩ ⟨[], [], []⟩).2.2.1
      (by decide) (by decide) (by decide) (by decide)⟩

theorem _ym_truthy {s : String} {v : Nat × Nat} (h : _ym (some s) = some v) :
    pyTruthy (some s) = true := by
  simp only [_ym] at h
  by_cases he : s.toList.isEmpty
  · rw [if_pos he] at h
    cases h
  · simp only [pyTruthy]
    cases hb : s.toList.isEmpty
    · rfl
    · exact absurd hb he

/-! ## C7 -/

/-- C7: with both the prior and the resulting month text parsed (to genuine
calendar months 1–12), `click_next_month` reports success exactly when the
resulting month is one calendar month after the prior one (in linearised
months, `12*y + m` advances by exactly 1, which covers the December → January
year rollover); a resulting month equal to or earlier than the prior one is
reported as failure. -/
theorem next_month_forward_only (p c : String) (py pm cy cm : Nat)
    (hp : _ym (some p) = some (py, pm)) (hc : _ym (some c) = some (cy, cm))
    (hpm1 : 1 ≤ pm) (hpm2 : pm ≤ 12) (hcm1 : 1 ≤ cm) (hcm2 : cm ≤ 12) :
    (click_next_month true (some p) (some c) = true ↔
      12 * cy + cm = 12 * py + pm + 1) ∧
    (12 * cy + cm ≤ 12 * py + pm →
      click_next_month true (some p) (some c) = false) := by
  have hfwd : _is_forward p c =
      ((pm == 12 && cy == py + 1 && cm == 1) || (cy == py && cm == pm + 1)) := by
    unfold _is_forward
    rw [hp, hc]
  have hres : click_next_month true (some p) (some c) = _is_forward p c := by
    simp only [click_next_month, _ym_truthy hp, _ym_truthy hc, Option.getD_some,
      Bool.not_true, Bool.true_and, Bool.false_eq_true, if_false]
    cases hf : _is_forward p c <;> simp [hf]
  constructor
  · rw [hres, hfwd]
    simp only [Bool.or_eq_true, Bool.and_eq_true, beq_iff_eq]
    omega
  · intro hle
    rw [hres, hfwd]
    simp only [Bool.or_eq_false_iff, Bool.and_eq_false_iff, beq_eq_false_iff_ne,
      ne_eq]
    omega

/-- Witness for C7: a clean one-month step 2025年3月 → 2025年4月 parses on
both sides and is accepted. -/
theorem next_month_forward_only_witness :
    (_ym (some "2025年3月") = some (2025, 3) ∧ _ym (some "2025年4月") = some (2025, 4)) ∧
    (click_next_month true (some "2025年3月") (some "2025年4月") = true ↔
      12 * 2025 + 4 = 12 * 2025 + 3 + 1) :=
  ⟨⟨by decide, by decide⟩,
    (next_month_forward_only "2025年3月" "2025年4月" 2025 3 2025 4
      (by decide) (by decide) (by decide) (by decide) (by decide) (by decide)).1⟩

/-! ## C10 -/

/-- C10: once a click was dispatched, a run in which no parseable current
month text is obtained (the `get_current_year_month_text` search finds no
year-month pattern, or reading it threw, both leaving `cur = None`) is
reported successful; the forward-direction check can only reject a
transition when both the prior and the resulting month texts are present
and truthy. -/
theorem next_month_unparsed_accepted :
    (∀ prev : Option String, click_next_month true prev none = true) ∧
    (∀ (targets : List String) (prev : Option String),
      get_current_year_month_text targets = none →
      click_next_month true prev (get_current_year_month_text targets) = true) ∧
    (∀ prev cur : Option String, click_next_month true prev cur = false →
      pyTruthy prev = true ∧ pyTruthy cur = true ∧
        _is_forward (prev.getD "") (cur.getD "") = false) := by
  have h1 : ∀ prev : Option String, click_next_month true prev none = true := by
    intro prev
    simp [click_next_month, pyTruthy]
  refine ⟨h1, ?_, ?_⟩
  · intro targets prev h
    rw [h]
    exact h1 prev
  · intro prev cur h
    by_cases hcond :
        (pyTruthy prev && pyTruthy cur &&
          !(_is_forward (prev.getD "") (cur.getD ""))) = true
    · simp only [Bool.and_eq_true, Bool.not_eq_true'] at hcond
      exact ⟨hcond.1.1, hcond.1.2, hcond.2⟩
    · exfalso
      simp [click_next_month, hcond] at h

/-- Witness for C10: a page whose body has no year-month pattern yields
`None`, and the transition is accepted. -/
theorem next_month_unparsed_accepted_witness :
    get_current_year_month_text ["予約カレンダー"] = none ∧
    click_next_month true (some "2025年3月")
      (get_current_year_month_text ["予約カレンダー"]) = true :=
  ⟨by decide,
    next_month_unparsed_accepted.2.1 ["予約カレンダー"] (some "2025年3月") (by decide)⟩

/-! ## C8 -/

/-- C8: the persistence step of `run_monitor` passes the change decision to
`save_calendar_assets` as `save_ts`; on an unchanged summary only the two
latest files are written and both timestamped outputs are `None`, on a
changed summary the two timestamped copies are written in addition and
returned. -/
theorem save_assets_history_policy (prev : Option (List (String × Nat)))
    (summary : List (String × Nat)) (outdir ts : String) :
    (summaries_changed prev (some summary) = false →
      (run_monitor_persist prev summary outdir ts).2.writes =
        [outdir ++ "/calendar.html", outdir ++ "/calendar.png"] ∧
      (run_monitor_persist prev summary outdir ts).2.ts_html = none ∧
      (run_monitor_persist prev summary outdir ts).2.ts_png = none) ∧
    (summaries_changed prev (some summary) = true →
      (run_monitor_persist prev summary outdir ts).2.writes =
        [outdir ++ "/calendar.html", outdir ++ "/calendar.png",
         outdir ++ "/calendar_" ++ ts ++ ".html",
         outdir ++ "/calendar_" ++ ts ++ ".png"] ∧
      (run_monitor_persist prev summary outdir ts).2.ts_html =
        some (outdir ++ "/calendar_" ++ ts ++ ".html") ∧
      (run_monitor_persist prev summary outdir ts).2.ts_png =
        some (outdir ++ "/calendar_" ++ ts ++ ".png")) := by
  constructor
  · intro h
    simp [run_monitor_persist, save_calendar_assets, h]
  · intro h
    simp [run_monitor_persist, save_calendar_assets, h]

/-- Witness for C8: an identical previous summary is unchanged, so only the
latest files are written and no timestamped copy is produced. -/
theorem save_assets_history_policy_witness :
    summaries_changed (some [("○", 0), ("△", 1), ("×", 5), ("未判定", 0)])
      (some [("○", 0), ("△", 1), ("×", 5), ("未判定", 0)]) = false ∧
    ((run_monitor_persist (some [("○", 0), ("△", 1), ("×", 5), ("未判定", 0)])
        [("○", 0), ("△", 1), ("×", 5), ("未判定", 0)] "out" "20260101_120000").2.writes =
      ["out/calendar.html", "out/calendar.png"] ∧
     (run_monitor_persist (some [("○", 0), ("△", 1), ("×", 5), ("未判定", 0)])
        [("○", 0), ("△", 1), ("×", 5), ("未判定", 0)] "out" "20260101_120000").2.ts_html = none ∧
     (run_monitor_persist (some [("○", 0), ("△", 1), ("×", 5), ("未判定", 0)])
        [("○", 0), ("△", 1), ("×", 5), ("未判定", 0)] "out" "20260101_120000").2.ts_png = none) :=
  ⟨by decide,
    (save_assets_history_policy (some [("○", 0), ("△", 1), ("×", 5), ("未判定", 0)])
      [("○", 0), ("△", 1), ("×", 5), ("未判定", 0)] "out" "20260101_120000").1 (by decide)⟩

/-! ## Status-range lemmas: every classified status is one of the four keys -/

theorem glyph_range {txt s : String} (h : glyph_status txt = some s) :
    s = "○" ∨ s = "△" ∨ s = "×" := by
  unfold glyph_status at h
  split_ifs at h <;> simp_all

theorem kw_range {n : String} {p : Patterns} {s : String}
    (h : kw_status n p = some s) : s = "○" ∨ s = "△" ∨ s = "×" := by
  unfold kw_status at h
  split_ifs at h <;> simp_all

theorem class_range {cls : String} {p : Patterns} {s : String}
    (h : _status_from_class cls p = some s) : s = "○" ∨ s = "△" ∨ s = "×" := by
  simp only [_status_from_class] at h
  split_ifs at h <;> simp_all

theorem st_range {raw : Option String} {p : Patterns} {s : String}
    (h : _st_from_text_and_src raw p = some s) :
    s = "○" ∨ s = "△" ∨ s = "×" := by
  cases raw with
  | none => cases h
  | some r =>
    have key : _st_from_text_and_src (some r) p =
        match glyph_status (pyStrip r) with
        | some st => some st
        | none => kw_status (pyLower (pyReplaceChar (pyStrip r) '　' ' ')) p := rfl
    rw [key] at h
    cases hg : glyph_status (pyStrip r) with
    | some g =>
      rw [hg] at h
      cases h
      exact glyph_range hg
    | none =>
      rw [hg] at h
      exact kw_range h

theorem stFromImgs_range :
    ∀ (imgs : List String) {p : Patterns} {s : String},
      stFromImgs imgs p = some s → s = "○" ∨ s = "△" ∨ s = "×" := by
  intro imgs
  induction imgs with
  | nil =>
    intro p s h
    cases h
  | cons a rest ih =>
    intro p s h
    simp only [stFromImgs] at h
    split at h
    next st hst =>
      cases h
      exact st_range hst
    next => exact ih h

theorem tdStatusFound_range {td : TdBlock} {p css : Patterns} {s : String}
    (h : tdStatusFound td p css = some s) : s = "○" ∨ s = "△" ∨ s = "×" := by
  simp only [tdStatusFound] at h
  split at h
  next st hst =>
    cases h
    exact st_range hst
  next =>
    split at h
    next st hst =>
      cases h
      exact stFromImgs_range _ hst
    next => exact class_range h

theorem tdStatus_mem (td : TdBlock) (p css : Patterns) :
    tdStatus td p css = "○" ∨ tdStatus td p css = "△" ∨
      tdStatus td p css = "×" ∨ tdStatus td p css = "未判定" := by
  unfold tdStatus
  cases h : tdStatusFound td p css with
  | none => simp
  | some s =>
    rcases tdStatusFound_range h with h1 | h1 | h1 <;> simp [h1]

/-! ## The summary is the per-status count of the detail list -/

/-- The four-key count dictionary of a detail list. -/
def statusCountsList (ds : List Detail) : List (String × Nat) :=
  [("○", ds.countP (fun d => d.status == "○")),
   ("△", ds.countP (fun d => d.status == "△")),
   ("×", ds.countP (fun d => d.status == "×")),
   ("未判定", ds.countP (fun d => d.status == "未判定"))]

theorem bump_statusCounts (ds : List Detail) (d : Detail)
    (h : d.status = "○" ∨ d.status = "△" ∨ d.status = "×" ∨ d.status = "未判定") :
    bumpKey (statusCountsList ds) d.status = statusCountsList (ds ++ [d]) := by
  rcases h with h | h | h | h <;>
    simp [bumpKey, statusCountsList, List.countP_append, List.countP_cons, h]

theorem processTd_status {td : TdBlock} {p css : Patterns} {d : Detail}
    (h : processTd td p css = some d) : d.status = tdStatus td p css := by
  unfold processTd at h
  cases hd : tdDay td with
  | none =>
    rw [hd] at h
    cases h
  | some day =>
    rw [hd] at h
    cases h
    rfl

theorem summarizeTds_go (patterns css : Patterns) :
    ∀ (tds : List TdBlock) (s : List (String × Nat)) (ds : List Detail),
      s = statusCountsList ds →
      (tds.foldl (fun acc td =>
          match processTd td patterns css with
          | none => acc
          | some d => (bumpKey acc.1 d.status, acc.2 ++ [d])) (s, ds)) =
        (statusCountsList (ds ++ tds.filterMap (fun td => processTd td patterns css)),
         ds ++ tds.filterMap (fun td => processTd td patterns css)) := by
  intro tds
  induction tds with
  | nil =>
    intro s ds h
    simp [h]
  | cons td rest ih =>
    intro s ds h
    simp only [List.foldl_cons, List.filterMap_cons]
    cases hp : processTd td patterns css with
    | none => simpa using ih s ds h
    | some d =>
      have hmem : d.status = "○" ∨ d.status = "△" ∨ d.status = "×" ∨
          d.status = "未判定" := by
        rw [processTd_status hp]
        exact tdStatus_mem td patterns css
      simp only []
      rw [ih (bumpKey s d.status) (ds ++ [d])
        (by rw [h]; exact bump_statusCounts ds d hmem)]
      simp

theorem summarizeTds_eq (patterns css : Patterns) (tds : List TdBlock) :
    summarizeTds tds patterns css =
      (statusCountsList (tds.filterMap (fun td => processTd td patterns css)),
       tds.filterMap (fun td => processTd td patterns css)) := by
  have h := summarizeTds_go patterns css tds initSummary [] rfl
  simpa [summarizeTds] using h

/-! ## C5 -/

/-- C5: a candidate cell in which no day number is discoverable — not in
its visible-like text, not in its title/aria-label attribute text, not in
any descendant image's alt/title — contributes to neither the summary nor
the detail list of `summarize_vacancies`; a cell with a day but no
classifiable status is recorded as 未判定 (unknown); and the summary always
equals the per-status counts over the recorded details, so such a cell is
counted there. -/
theorem dayless_cells_excluded (patterns css : Patterns) :
    (∀ (l₁ l₂ : List TdBlock) (td : TdBlock),
      _find_day_in_text (_inner_text_like td.inner) = none →
      _find_day_in_text (td.title ++ " " ++ td.aria) = none →
      findDayInImgs (extractImgTags td.inner) = none →
      summarizeTds (l₁ ++ td :: l₂) patterns css =
        summarizeTds (l₁ ++ l₂) patterns css) ∧
    (∀ (td : TdBlock) (day : String),
      tdDay td = some day → tdStatusFound td patterns css = none →
      processTd td patterns css =
        some { day := day, status := "未判定", text := _inner_text_like td.inner }) ∧
    (∀ tds : List TdBlock,
      (summarizeTds tds patterns css).1 =
        statusCountsList (summarizeTds tds patterns css).2) := by
  refine ⟨?_, ?_, ?_⟩
  · intro l₁ l₂ td h1 h2 h3
    have hday : tdDay td = none := by
      unfold tdDay
      rw [h1, h2, h3]
    have hproc : processTd td patterns css = none := by
      unfold processTd
      rw [hday]
    rw [summarizeTds_eq, summarizeTds_eq, List.filterMap_append,
      List.filterMap_append, List.filterMap_cons, hproc]
  · intro td day hday hst
    unfold processTd
    rw [hday]
    unfold tdStatus
    rw [hst]
    rfl
  · intro tds
    rw [summarizeTds_eq]

/-- A header-like cell with no day number anywhere, for the C5 witness. -/
def headerTd : TdBlock :=
  { attrs := "", cls := "", title := "", aria := "", inner := "予約ヘッダ" }

/-- Witness for C5: a header cell with no day number anywhere leaves the
result of `summarize_vacancies`'s aggregation untouched. -/
theorem dayless_cells_excluded_witness :
    (_find_day_in_text (_inner_text_like headerTd.inner) = none ∧
      _find_day_in_text (headerTd.title ++ " " ++ headerTd.aria) = none ∧
      findDayInImgs (extractImgTags headerTd.inner) = none) ∧
    summarizeTds ([] ++ headerTd :: []) ⟨[], [], []⟩ ⟨[], [], []⟩ =
      summarizeTds ([] ++ []) ⟨[], [], []⟩ ⟨[], [], []⟩ :=
  ⟨⟨by decide, by decide, by decide⟩,
    (dayless_cells_excluded ⟨[], [], []⟩ ⟨[], [], []⟩).1 [] [] headerTd
      (by decide) (by decide) (by decide)⟩

/-! ## C3 -/

/-- Configuration for the C3 counterexample: one configured circle text
keyword, no class keywords. -/
def c3Config : Config :=
  { status_patterns := ⟨["予約可能"], [], []⟩, css_class_patterns := ⟨[], [], []⟩ }

/-- C3 counterexample: a day-bearing cell whose day comes from its `title`
attribute and whose `title` text matches a configured circle keyword. The
claimed resolution order consults ARIA label/title keywords before giving
up (the second conjunct shows the keyword scan on the aria+title text
yields ○), yet `summarize_vacancies` records the cell as 未判定 (unknown):
the bulk parser has no ARIA/title status step at all. -/
theorem bulk_aria_ignored_counterexample :
    (summarize_vacancies_html "<td title=\"3日 予約可能\"></td>" c3Config).2 =
      [{ day := "3日", status := "未判定", text := "" }] ∧
    _st_from_text_and_src (some (("" : String) ++ " " ++ "3日 予約可能"))
      c3Config.status_patterns = some "○" :=
  ⟨by decide, by decide⟩

/-- C3 as amended: for a day-bearing cell whose visible-like text matches
no glyph and no text keyword, `summarize_vacancies` resolves status by each
descendant image's combined alt+title+src text, then the class attribute
against the class keyword set, and records 未判定 only when both find
nothing; the ARIA label / title attributes are never consulted for status
(the class keyword set is irrelevant whenever an image decides). -/
theorem bulk_status_order (td : TdBlock) (patterns css css' : Patterns)
    (h : _st_from_text_and_src (some (_inner_text_like td.inner)) patterns = none) :
    (∀ st, stFromImgs (extractImgTags td.inner) patterns = some st →
      tdStatus td patterns css = st ∧
        tdStatus td patterns css = tdStatus td patterns css') ∧
    (stFromImgs (extractImgTags td.inner) patterns = none →
      tdStatus td patterns css = (_status_from_class td.cls css).getD "未判定") ∧
    (∀ d, processTd td patterns css = some d →
      d.status = tdStatus td patterns css) := by
  refine ⟨?_, ?_, ?_⟩
  · intro st hst
    constructor
    · unfold tdStatus tdStatusFound
      rw [h, hst]
      rfl
    · unfold tdStatus tdStatusFound
      rw [h, hst]
  · intro hst
    unfold tdStatus tdStatusFound
    rw [h, hst]
  · intro d hd
    exact processTd_status hd

/-- The cell of the C3 amended witness: day in the text, status only in an
image's alt glyph. -/
def c3Td : TdBlock :=
  { attrs := "", cls := "", title := "", aria := "",
    inner := "4日<img alt=\"△\" src=\"x.gif\">" }

/-- Witness for C3 (amended): a cell whose image alt text carries the
triangle glyph is classified △ whatever the class keyword lists are. -/
theorem bulk_status_order_witness :
    _st_from_text_and_src (some (_inner_text_like c3Td.inner)) ⟨[], [], []⟩ = none ∧
    stFromImgs (extractImgTags c3Td.inner) ⟨[], [], []⟩ = some "△" ∧
    tdStatus c3Td ⟨[], [], []⟩ ⟨["day"], [], []⟩ = "△" ∧
    tdStatus c3Td ⟨[], [], []⟩ ⟨["day"], [], []⟩ =
      tdStatus c3Td ⟨[], [], []⟩ ⟨[], [], ["day"]⟩ := by
  have h := (bulk_status_order c3Td ⟨[], [], []⟩ ⟨["day"], [], []⟩ ⟨[], [], ["day"]⟩
    (by decide)).1 "△" (by decide)
  exact ⟨by decide, by decide, h.1, h.2⟩

/-! ## C4 -/

/-- The cell of the C4 counterexample: no class, no aria, empty body, and a
`title` attribute carrying both the day number and a circle glyph. -/
def c4Cell : Cell := { cls := none, title := some "5日○", aria := none, children := [] }

/-- Empty keyword configuration for the C4 counterexample. -/
def c4Config : Config :=
  { status_patterns := ⟨[], [], []⟩, css_class_patterns := ⟨[], [], []⟩ }

/-- C4 counterexample: for the same calendar markup (the bulk side parses
exactly the serialisation of the one cell the fallback queries), the bulk
extractor records {5日, 未判定} while the per-cell fallback records
{5日, ○} — the fallback reads the title attribute for status, the bulk
parser does not — and consequently the two status summaries differ too. -/
theorem bulk_fallback_disagree_counterexample :
    (summarize_vacancies (Except.ok (renderRegion [c4Cell])) [c4Cell] c4Config).2.map
        (fun d => (d.day, d.status)) = [("5日", "未判定")] ∧
    (_summarize_vacancies_fallback [c4Cell] c4Config).2.map
        (fun d => (d.day, d.status)) = [("5日", "○")] ∧
    (summarize_vacancies (Except.ok (renderRegion [c4Cell])) [c4Cell] c4Config).1 ≠
      (_summarize_vacancies_fallback [c4Cell] c4Config).1 :=
  ⟨by decide, by decide, by decide⟩

/-- C4 as amended: the two extractors do not in general produce the same
records for the same markup (see the counterexample); what holds is the
fallback clause — whenever retrieval of the region's serialized markup
throws, `summarize_vacancies` returns exactly the result of the per-cell
fallback on the live cells. -/
theorem bulk_falls_back_on_error (e : Unit) (cells : List Cell) (config : Config) :
    summarize_vacancies (Except.error e) cells config =
      _summarize_vacancies_fallback cells config := rfl

/-! ## C6 -/

/-- Numeric value of a digit run, as Python `int` reads the matched group. -/
def numVal (num : List Char) : Nat := num.foldl (fun a c => 10 * a + digitVal c) 0

theorem numVal_single (a : Char) : numVal [a] = digitVal a := by
  simp [numVal]

theorem numVal_pair (a b : Char) : numVal [a, b] = 10 * digitVal a + digitVal b := by
  simp [numVal, List.foldl]

theorem char_le_toNat {a b : Char} (h : a ≤ b) : a.toNat ≤ b.toNat := h

theorem bool_and_mp {a b : Bool} (h : (a && b) = true) : a = true ∧ b = true := by
  simp_all

theorem bool_or_mp {a b : Bool} (h : (a || b) = true) : a = true ∨ b = true := by
  simp_all

theorem digitVal_le_nine {c : Char} (h : isPyDigit c = true) : digitVal c ≤ 9 := by
  have e0 : ('0' : Char).toNat = 48 := rfl
  have e9 : ('9' : Char).toNat = 57 := rfl
  have ef0 : ('０' : Char).toNat = 65296 := rfl
  have ef9 : ('９' : Char).toNat = 65305 := rfl
  unfold isPyDigit at h
  rcases bool_or_mp h with h1 | h1
  · rcases bool_and_mp h1 with ⟨ha, hb⟩
    have ha' : (48 : Nat) ≤ c.toNat := char_le_toNat (of_decide_eq_true ha)
    have hb' : c.toNat ≤ 57 := char_le_toNat (of_decide_eq_true hb)
    unfold digitVal
    rw [if_pos h1]
    omega
  · rcases bool_and_mp h1 with ⟨ha, hb⟩
    have ha' : (65296 : Nat) ≤ c.toNat := char_le_toNat (of_decide_eq_true ha)
    have hb' : c.toNat ≤ 65305 := char_le_toNat (of_decide_eq_true hb)
    have hneg : ¬(('0' ≤ c && c ≤ '9') = true) := by
      intro hx
      rcases bool_and_mp hx with ⟨_, hx2⟩
      have := char_le_toNat (of_decide_eq_true hx2)
      omega
    unfold digitVal
    rw [if_neg hneg, if_pos h1]
    omega

theorem digitVal_bounds_ascii {c : Char} (h1 : '1' ≤ c) (h2 : c ≤ '9') :
    1 ≤ digitVal c ∧ digitVal c ≤ 9 := by
  have e0 : ('0' : Char).toNat = 48 := rfl
  have k1 : (49 : Nat) ≤ c.toNat := char_le_toNat h1
  have k2 : c.toNat ≤ 57 := char_le_toNat h2
  have hpos : (('0' ≤ c && c ≤ '9') = true) := by
    rw [Bool.and_eq_true]
    exact ⟨decide_eq_true (show (48 : Nat) ≤ c.toNat by omega),
      decide_eq_true (show c.toNat ≤ (57 : Nat) by omega)⟩
  unfold digitVal
  rw [if_pos hpos]
  omega

theorem tryDaySuffix_sound {rest t : List Char} (h : tryDaySuffix rest = some t) :
    ∃ ws r', t = ws ++ ['日'] ∧ ws.all isPySpace = true ∧ rest = ws ++ '日' :: r' := by
  unfold tryDaySuffix at h
  split at h
  next x heq =>
    injection h with h1
    refine ⟨rest.takeWhile isPySpace, x, h1.symm, ?_, ?_⟩
    · exact List.all_eq_true.mpr fun c hc => List.mem_takeWhile_imp hc
    · conv_lhs => rw [← List.takeWhile_append_dropWhile isPySpace rest]
      rw [heq]
  next => cases h

theorem matchDayAtTwo_sound {c : Char} {rest m : List Char}
    (h : matchDayAtTwo c rest = some m) :
    ∃ num ws r', m = num ++ (ws ++ ['日']) ∧ ws.all isPySpace = true ∧
      c :: rest = m ++ r' ∧ 1 ≤ numVal num ∧ numVal num ≤ 31 := by
  cases rest with
  | nil => cases h
  | cons c2 rest2 =>
    simp only [matchDayAtTwo] at h
    split at h
    next m2 hm2 =>
      cases h
      by_cases hb : (((c = '1' || c = '2') && isPyDigit c2) = true)
      · rw [if_pos hb] at hm2
        rcases Option.map_eq_some'.mp hm2 with ⟨t, ht, rfl⟩
        rcases tryDaySuffix_sound ht with ⟨ws, r', h1, h2, h3⟩
        rcases bool_and_mp hb with ⟨hb1, hb2⟩
        have hc2 : digitVal c2 ≤ 9 := digitVal_le_nine hb2
        have hc1 : digitVal c = 1 ∨ digitVal c = 2 := by
          rcases bool_or_mp hb1 with h | h
          · left
            rw [of_decide_eq_true h]
            rfl
          · right
            rw [of_decide_eq_true h]
            rfl
        have hv : numVal [c, c2] = 10 * digitVal c + digitVal c2 := numVal_pair c c2
        refine ⟨[c, c2], ws, r', by simp [h1], h2, by simp [h3, h1], ?_, ?_⟩
        · rcases hc1 with h | h <;> rw [hv, h] <;> omega
        · rcases hc1 with h | h <;> rw [hv, h] <;> omega
      · rw [if_neg hb] at hm2
        cases hm2
    next hm2 =>
      by_cases hb : ((c = '3' && (c2 = '0' || c2 = '1')) = true)
      · rw [if_pos hb] at h
        rcases Option.map_eq_some'.mp h with ⟨t, ht, rfl⟩
        rcases tryDaySuffix_sound ht with ⟨ws, r', h1, h2, h3⟩
        rcases bool_and_mp hb with ⟨hb1, hb2⟩
        have hc : c = '3' := of_decide_eq_true hb1
        have hc2 : c2 = '0' ∨ c2 = '1' := by
          rcases bool_or_mp hb2 with h | h
          · exact Or.inl (of_decide_eq_true h)
          · exact Or.inr (of_decide_eq_true h)
        refine ⟨[c, c2], ws, r', by simp [h1], h2, by simp [h3, h1], ?_, ?_⟩
        · subst hc
          rcases hc2 with h | h <;> subst h <;> decide
        · subst hc
          rcases hc2 with h | h <;> subst h <;> decide
      · rw [if_neg hb] at h
        cases h

theorem matchDayAt_sound {cs m : List Char} (h : matchDayAt cs = some m) :
    ∃ num ws r', m = num ++ (ws ++ ['日']) ∧ ws.all isPySpace = true ∧
      cs = m ++ r' ∧ 1 ≤ numVal num ∧ numVal num ≤ 31 := by
  cases cs with
  | nil => cases h
  | cons c rest =>
    simp only [matchDayAt] at h
    split at h
    next m1 hm1 =>
      cases h
      by_cases hb : (('1' ≤ c && c ≤ '9') = true)
      · rw [if_pos hb] at hm1
        rcases Option.map_eq_some'.mp hm1 with ⟨t, ht, rfl⟩
        rcases tryDaySuffix_sound ht with ⟨ws, r', h1, h2, h3⟩
        rcases bool_and_mp hb with ⟨hb1, hb2⟩
        have hd := digitVal_bounds_ascii (of_decide_eq_true hb1) (of_decide_eq_true hb2)
        have hv : numVal [c] = digitVal c := numVal_single c
        refine ⟨[c], ws, r', by simp [h1], h2, by simp [h3, h1], ?_, ?_⟩
        · rw [hv]
          exact hd.1
        · rw [hv]
          omega
      · rw [if_neg hb] at hm1
        cases hm1
    next hm1 => exact matchDayAtTwo_sound h

theorem findDayAux_sound :
    ∀ {cs m : List Char}, findDayAux cs = some m →
      ∃ num ws, m = num ++ (ws ++ ['日']) ∧ ws.all isPySpace = true ∧
        1 ≤ numVal num ∧ numVal num ≤ 31 ∧ m <:+: cs := by
  intro cs
  induction cs with
  | nil =>
    intro m h
    cases h
  | cons c rest ih =>
    intro m h
    simp only [findDayAux] at h
    split at h
    next m1 hm1 =>
      cases h
      rcases matchDayAt_sound hm1 with ⟨num, ws, r', h1, h2, h3, h4, h5⟩
      exact ⟨num, ws, h1, h2, h4, h5, ⟨[], r', by rw [h3]; rfl⟩⟩
    next hm1 =>
      rcases ih h with ⟨num, ws, h1, h2, h3, h4, h5⟩
      exact ⟨num, ws, h1, h2, h3, h4, List.infix_cons h5⟩

/-- Empty keyword configuration (used by concrete evaluations). -/
def emptyConfig : Config :=
  { status_patterns := ⟨[], [], []⟩, css_class_patterns := ⟨[], [], []⟩ }

/-- C6 counterexample: the claim says text whose only number is out of range
(for example 32日) yields no day and the cell is excluded; in fact the
regex backtracks into the digit run and `_find_day_in_text "32日"` returns
`2日`, and a cell whose text is `32日` is recorded (with day 2日), not
excluded. -/
theorem find_day_counterexample :
    _find_day_in_text "32日" = some "2日" ∧
    (summarize_vacancies_html "<td>32日</td>" emptyConfig).2 =
      [{ day := "2日", status := "未判定", text := "32日" }] :=
  ⟨by decide, by decide⟩

/-- C6 as amended: a day value is attached only when the text contains an
occurrence of a number 1–31 followed by optional whitespace and the marker
日 — the matched number may be a suffix of a longer digit run (32日 matches
as 2日) — and the match is always a substring of the text with its number
in range 1–31; a text like 40日, in which no in-range number immediately
precedes 日, yields no day. -/
theorem find_day_range_sound :
    (∀ s d : String, _find_day_in_text s = some d →
      ∃ num ws, d.toList = num ++ (ws ++ ['日']) ∧ ws.all isPySpace = true ∧
        1 ≤ numVal num ∧ numVal num ≤ 31 ∧ d.toList <:+: s.toList) ∧
    _find_day_in_text "40日" = none := by
  constructor
  · intro s d h
    unfold _find_day_in_text at h
    rcases Option.map_eq_some'.mp h with ⟨m, hm, rfl⟩
    rcases findDayAux_sound hm with ⟨num, ws, h1, h2, h3, h4, h5⟩
    exact ⟨num, ws, h1, h2, h3, h4, h5⟩
  · decide

/-- Witness for C6 (amended): `12日` is found, and the match decomposes as
an in-range number followed by 日. -/
theorem find_day_range_sound_witness :
    _find_day_in_text "ab12日c" = some "12日" ∧
    (∃ num ws, ("12日" : String).toList = num ++ (ws ++ ['日']) ∧
      ws.all isPySpace = true ∧ 1 ≤ numVal num ∧ numVal num ≤ 31 ∧
      ("12日" : String).toList <:+: ("ab12日c" : String).toList) :=
  ⟨by decide, find_day_range_sound.1 "ab12日c" "12日" (by decide)⟩

/-! ## C9 -/

theorem pyRfind_some {ch : Char} {cs : List Char} :
    ∀ {hi i : Nat}, pyRfind ch cs hi = some i →
      cs.get? i = some ch ∧ i < hi ∧ ∀ j, i < j → j < hi → cs.get? j ≠ some ch := by
  intro hi
  induction hi with
  | zero =>
    intro i h
    cases h
  | succ n ih =>
    intro i h
    simp only [pyRfind] at h
    by_cases hc : cs.get? n = some ch
    · rw [if_pos hc] at h
      cases h
      exact ⟨hc, Nat.lt_succ_self n, fun j hj1 hj2 => absurd hj2 (by omega)⟩
    · rw [if_neg hc] at h
      obtain ⟨h1, h2, h3⟩ := ih h
      refine ⟨h1, by omega, fun j hj1 hj2 => ?_⟩
      rcases Nat.lt_succ_iff_lt_or_eq.mp hj2 with hj | hj
      · exact h3 j hj1 hj
      · subst hj
        exact hc

theorem pyRfind_none {ch : Char} {cs : List Char} :
    ∀ {hi : Nat}, pyRfind ch cs hi = none → ∀ j, j < hi → cs.get? j ≠ some ch := by
  intro hi
  induction hi with
  | zero =>
    intro _ j hj
    exact absurd hj (Nat.not_lt_zero j)
  | succ n ih =>
    intro h j hj
    simp only [pyRfind] at h
    by_cases hc : cs.get? n = some ch
    · rw [if_pos hc] at h
      cases h
    · rw [if_neg hc] at h
      rcases Nat.lt_succ_iff_lt_or_eq.mp hj with hj' | hj'
      · exact ih h j hj'
      · subst hj'
        exact hc

theorem chooseCut_le (cur : List Char) (limit : Nat) : chooseCut cur limit ≤ limit := by
  unfold chooseCut
  cases h1 : pyRfind '\n' cur limit with
  | some i => exact Nat.le_of_lt (pyRfind_some h1).2.1
  | none =>
    cases h2 : pyRfind ' ' cur limit with
    | some i => exact Nat.le_of_lt (pyRfind_some h2).2.1
    | none => exact Nat.le_refl limit

theorem filter_dropWhile_eq (l : List Char) :
    (l.dropWhile isPySpace).filter (fun c => !isPySpace c) =
      l.filter (fun c => !isPySpace c) := by
  induction l with
  | nil => rfl
  | cons c cs ih =>
    by_cases hc : isPySpace c
    · rw [List.dropWhile_cons_of_pos hc, ih, List.filter_cons]
      simp [hc]
    · rw [List.dropWhile_cons_of_neg hc]

theorem filter_pyLstripL (l : List Char) :
    (pyLstripL l).filter (fun c => !isPySpace c) = l.filter (fun c => !isPySpace c) :=
  filter_dropWhile_eq l

theorem filter_pyRstripL (l : List Char) :
    (pyRstripL l).filter (fun c => !isPySpace c) = l.filter (fun c => !isPySpace c) := by
  unfold pyRstripL
  rw [List.filter_reverse, filter_dropWhile_eq, List.filter_reverse,
    List.reverse_reverse]

theorem filter_pyStripL (l : List Char) :
    (pyStripL l).filter (fun c => !isPySpace c) = l.filter (fun c => !isPySpace c) := by
  unfold pyStripL
  rw [filter_pyRstripL, filter_pyLstripL]

theorem length_pyRstripL_le (l : List Char) : (pyRstripL l).length ≤ l.length := by
  unfold pyRstripL
  rw [List.length_reverse]
  calc (l.reverse.dropWhile isPySpace).length ≤ l.reverse.length :=
        length_dropWhile_le isPySpace l.reverse
    _ = l.length := List.length_reverse l

theorem lstrip_drop_lt {cur : List Char} {i : Nat} {c : Char}
    (hg : cur.get? i = some c) (hc : isPySpace c = true) :
    (pyLstripL (cur.drop i)).length < cur.length := by
  have hi : i < cur.length := (List.get?_eq_some.mp hg).1
  have hdrop : cur.drop i = cur.get ⟨i, hi⟩ :: cur.drop (i + 1) :=
    List.drop_eq_get_cons hi
  have hgc : cur.get ⟨i, hi⟩ = c := by
    have := List.get?_eq_get hi
    rw [hg] at this
    exact (Option.some_inj.mp this.symm)
  rw [hdrop, hgc]
  unfold pyLstripL
  rw [List.dropWhile_cons_of_pos hc]
  calc ((cur.drop (i + 1)).dropWhile isPySpace).length
      ≤ (cur.drop (i + 1)).length := length_dropWhile_le isPySpace _
    _ = cur.length - (i + 1) := List.length_drop (i + 1) cur
    _ < cur.length := by omega

theorem chooseCut_decrease (cur : List Char) (limit : Nat) (hlim : 1 ≤ limit)
    (hlen : limit < cur.length) :
    (pyLstripL (cur.drop (chooseCut cur limit))).length < cur.length := by
  unfold chooseCut
  cases h1 : pyRfind '\n' cur limit with
  | some i => exact lstrip_drop_lt (pyRfind_some h1).1 (by decide)
  | none =>
    cases h2 : pyRfind ' ' cur limit with
    | some i => exact lstrip_drop_lt (pyRfind_some h2).1 (by decide)
    | none =>
      calc (pyLstripL (cur.drop limit)).length ≤ (cur.drop limit).length :=
            length_dropWhile_le isPySpace _
        _ = cur.length - limit := List.length_drop limit cur
        _ < cur.length := by omega

theorem splitAux_spec (limit : Nat) (hlim : 1 ≤ limit) :
    ∀ (fuel : Nat) (cur : List Char), cur.length ≤ fuel →
      (∀ p ∈ splitAux limit fuel cur, p.length ≤ limit) ∧
      (splitAux limit fuel cur).flatten.filter (fun c => !isPySpace c) =
        cur.filter (fun c => !isPySpace c) := by
  intro fuel
  induction fuel with
  | zero =>
    intro cur hle
    have hnil : cur = [] := List.length_eq_zero.mp (Nat.le_zero.mp hle)
    subst hnil
    exact ⟨by simp [splitAux], by simp [splitAux]⟩
  | succ n ih =>
    intro cur hle
    by_cases hlen : limit < cur.length
    · have hrec : (pyLstripL (cur.drop (chooseCut cur limit))).length ≤ n := by
        have := chooseCut_decrease cur limit hlim hlen
        omega
      obtain ⟨ihb, ihf⟩ := ih (pyLstripL (cur.drop (chooseCut cur limit))) hrec
      have hstep : splitAux limit (n + 1) cur =
          pyRstripL (cur.take (chooseCut cur limit)) ::
            splitAux limit n (pyLstripL (cur.drop (chooseCut cur limit))) := by
        simp only [splitAux]
        rw [if_pos hlen]
      rw [hstep]
      constructor
      · intro p hp
        rcases List.mem_cons.mp hp with hp | hp
        · subst hp
          calc (pyRstripL (cur.take (chooseCut cur limit))).length
              ≤ (cur.take (chooseCut cur limit)).length := length_pyRstripL_le _
            _ ≤ chooseCut cur limit := by
                rw [List.length_take]
                omega
            _ ≤ limit := chooseCut_le cur limit
        · exact ihb p hp
      · rw [List.flatten_cons, List.filter_append, filter_pyRstripL, ihf,
          filter_pyLstripL, ← List.filter_append, List.take_append_drop]
    · have hstep : splitAux limit (n + 1) cur =
          if cur.isEmpty then [] else [cur] := by
        simp only [splitAux]
        rw [if_neg hlen]
      rw [hstep]
      by_cases he : cur.isEmpty
      · rw [if_pos he]
        have : cur = [] := by
          cases cur
          · rfl
          · cases he
        subst this
        exact ⟨by simp, by simp⟩
      · rw [if_neg he]
        refine ⟨?_, by simp⟩
        intro p hp
        rcases List.mem_cons.mp hp with hp | hp
        · subst hp
          omega
        · cases hp

theorem chooseCut_newline (cur : List Char) (limit : Nat)
    (h : ∃ i, i < limit ∧ cur.get? i = some '\n') :
    cur.get? (chooseCut cur limit) = some '\n' ∧ chooseCut cur limit < limit ∧
      ∀ j, chooseCut cur limit < j → j < limit → cur.get? j ≠ some '\n' := by
  unfold chooseCut
  cases h1 : pyRfind '\n' cur limit with
  | some i => exact pyRfind_some h1
  | none =>
    obtain ⟨i, hi, hg⟩ := h
    exact absurd hg (pyRfind_none h1 i hi)

theorem chooseCut_space (cur : List Char) (limit : Nat)
    (hnl : ∀ i, i < limit → cur.get? i ≠ some '\n')
    (h : ∃ i, i < limit ∧ cur.get? i = some ' ') :
    cur.get? (chooseCut cur limit) = some ' ' ∧ chooseCut cur limit < limit ∧
      ∀ j, chooseCut cur limit < j → j < limit → cur.get? j ≠ some ' ' := by
  unfold chooseCut
  cases h1 : pyRfind '\n' cur limit with
  | some i => exact absurd (pyRfind_some h1).1 (hnl i (pyRfind_some h1).2.1)
  | none =>
    cases h2 : pyRfind ' ' cur limit with
    | some i => exact pyRfind_some h2
    | none =>
      obtain ⟨i, hi, hg⟩ := h
      exact absurd hg (pyRfind_none h2 i hi)

theorem chooseCut_hard (cur : List Char) (limit : Nat)
    (hnl : ∀ i, i < limit → cur.get? i ≠ some '\n')
    (hsp : ∀ i, i < limit → cur.get? i ≠ some ' ') :
    chooseCut cur limit = limit := by
  unfold chooseCut
  cases h1 : pyRfind '\n' cur limit with
  | some i => exact absurd (pyRfind_some h1).1 (hnl i (pyRfind_some h1).2.1)
  | none =>
    cases h2 : pyRfind ' ' cur limit with
    | some i => exact absurd (pyRfind_some h2).1 (hsp i (pyRfind_some h2).2.1)
    | none => rfl

/-- C9: for a positive limit (the transport default is 2000), `_split_content`
produces pages that are each at most `limit` characters long; the pages
concatenated in order carry exactly the input's non-whitespace characters in
order; when the (stripped) input exceeds the limit, the first page is the
right-stripped prefix up to `chooseCut`, and `chooseCut` is the greatest
newline index before the limit when a newline exists there, else the
greatest space index before the limit, else the hard cut at `limit`. -/
theorem split_content_spec (s : String) (limit : Nat) (hlim : 1 ≤ limit) :
    (∀ page ∈ _split_content s limit, page.toList.length ≤ limit) ∧
    ((_split_content s limit).map String.toList).flatten.filter (fun c => !isPySpace c) =
      s.toList.filter (fun c => !isPySpace c) ∧
    (limit < (pyStripL s.toList).length →
      (_split_content s limit).head? =
        some ⟨pyRstripL ((pyStripL s.toList).take (chooseCut (pyStripL s.toList) limit))⟩) ∧
    (∀ cur : List Char,
      ((∃ i, i < limit ∧ cur.get? i = some '\n') →
        cur.get? (chooseCut cur limit) = some '\n' ∧ chooseCut cur limit < limit ∧
          ∀ j, chooseCut cur limit < j → j < limit → cur.get? j ≠ some '\n') ∧
      ((∀ i, i < limit → cur.get? i ≠ some '\n') →
        (∃ i, i < limit ∧ cur.get? i = some ' ') →
        cur.get? (chooseCut cur limit) = some ' ' ∧ chooseCut cur limit < limit ∧
          ∀ j, chooseCut cur limit < j → j < limit → cur.get? j ≠ some ' ') ∧
      ((∀ i, i < limit → cur.get? i ≠ some '\n') →
        (∀ i, i < limit → cur.get? i ≠ some ' ') →
        chooseCut cur limit = limit)) := by
  obtain ⟨hb, hf⟩ :=
    splitAux_spec limit hlim (pyStripL s.toList).length (pyStripL s.toList)
      (Nat.le_refl _)
  refine ⟨?_, ?_, ?_, ?_⟩
  · intro page hp
    simp only [_split_content] at hp
    rcases List.mem_map.mp hp with ⟨l, hl, rfl⟩
    exact hb l hl
  · simp only [_split_content]
    rw [List.map_map]
    have hmm : (String.toList ∘ fun l => (⟨l⟩ : String)) = id := rfl
    rw [hmm, List.map_id]
    rw [hf, filter_pyStripL]
  · intro hlen
    simp only [_split_content]
    obtain ⟨k, hk⟩ : ∃ k, (pyStripL s.toList).length = k + 1 := by
      refine ⟨(pyStripL s.toList).length - 1, ?_⟩
      omega
    rw [hk]
    have hstep : splitAux limit (k + 1) (pyStripL s.toList) =
        pyRstripL ((pyStripL s.toList).take (chooseCut (pyStripL s.toList) limit)) ::
          splitAux limit k
            (pyLstripL ((pyStripL s.toList).drop (chooseCut (pyStripL s.toList) limit))) := by
      simp only [splitAux]
      rw [if_pos hlen]
    rw [hstep]
    rfl
  · intro cur
    exact ⟨chooseCut_newline cur limit,
      chooseCut_space cur limit,
      chooseCut_hard cur limit⟩

/-- Witness for C9: with limit 4 every page of a concrete split obeys the
length bound. -/
theorem split_content_spec_witness :
    (1 ≤ 4) ∧ ∀ page ∈ _split_content "ab\ncd ef" 4, page.toList.length ≤ 4 :=
  ⟨by decide, (split_content_spec "ab\ncd ef" 4 (by decide)).1⟩

end FacilityMonitor
